import Mathlib

/-!
# Verification of the Timesheet Aggregator component

A shallow embedding of the timesheet/wage-calculator component
(`TimeSheetClient`) and proofs about it.

Modelling conventions:
* JavaScript numbers are modelled as exact rationals (`ℚ`).  `NaN` is
  modelled explicitly (`JSNum.nan`) at the one place a claim depends on
  it (sanitization of loaded week records); infinities and floating
  rounding are outside the model.
* A JavaScript `Date` is modelled by its whole-day offset from the epoch
  together with the milliseconds past midnight (`JSDate`).  The component
  never inspects a calendar field other than day-of-week, day arithmetic
  and the date-only ISO rendering, so this timestamp view is a faithful
  projection; valid ISO strings round-trip through `new Date` exactly, so
  interchange fields that carry dates are modelled by the date value.
* `localStorage` is modelled as an association list from string keys to
  stored payloads; storing a serialized value is modelled by storing the
  value itself (serialization of week data is injective and never read
  back in a different shape).
* Optional / possibly-absent JSON fields are modelled with `Option`;
  `none` stands for an absent (or nullish, hence falsy) field.
-/

/-! ## Dates -/

/-- A JavaScript `Date`: `day` is the number of whole days since the
epoch, `ms` the milliseconds elapsed since that day's midnight. -/
structure JSDate where
  day : ℤ
  ms : ℤ
deriving DecidableEq, Repr

/-- Model of `Date.prototype.getDay`: day of week, `0` = Sunday … `6` = Saturday.
Day `0` of the epoch (1970-01-01) was a Thursday, hence the offset `4`. -/
def getDay (d : JSDate) : ℤ :=
  (d.day + 4) % 7

/-- Embedding of `getMonday` (source lines 66–74): copy the date, compute
`diff = getDate() - dayOfWeek + (dayOfWeek === 0 ? -6 : 1)`, `setDate diff`
(a net shift of `-dayOfWeek + (dayOfWeek = 0 ? -6 : 1)` whole days) and
normalize the time-of-day to midnight via `setHours(0,0,0,0)`. -/
def getMonday (d : JSDate) : JSDate :=
  let dayOfWeek := getDay d
  { day := d.day - dayOfWeek + (if dayOfWeek = 0 then -6 else 1)
    ms := 0 }

/-- C9: `getMonday d` lands on a Monday, at midnight, within the seven-day
ISO week containing `d` (the Monday is at most six days before `d` and not
after it), and `getMonday` is idempotent, so re-deriving the Monday of the
same calendar day is stable. -/
theorem claim_C9 (d : JSDate) :
    getDay (getMonday d) = 1
    ∧ (getMonday d).ms = 0
    ∧ (getMonday d).day ≤ d.day
    ∧ d.day < (getMonday d).day + 7
    ∧ getMonday (getMonday d) = getMonday d := by
  have h0 : 0 ≤ (d.day + 4) % 7 := Int.emod_nonneg _ (by norm_num)
  have h7 : (d.day + 4) % 7 < 7 := Int.emod_lt_of_pos _ (by norm_num)
  simp only [getMonday, getDay, JSDate.mk.injEq, and_true]
  refine ⟨?_, trivial, ?_, ?_, ?_⟩ <;> split_ifs <;> omega

/-! ## String parsing helpers used by the component -/

/-- Model of `String.prototype.split(":")` for a single-character separator:
splits the character list at every `':'`, keeping empty fragments
(`"".split(":") = [""]`, `"a:".split(":") = ["a", ""]`). -/
def splitColonAux : List Char → List Char → List String
  | [], acc => [String.mk acc.reverse]
  | c :: rest, acc =>
    if c = ':' then String.mk acc.reverse :: splitColonAux rest []
    else splitColonAux rest (c :: acc)

/-- Embedding of `s.split(":")` from the source. -/
def jsSplitColon (s : String) : List String :=
  splitColonAux s.data []

/-- Model of `parseInt(s, 10)`: skip leading whitespace, read an optional sign and
then the longest run of decimal digits; `none` models the `NaN` result
when no digit is found. -/
def parseIntJS (s : String) : Option ℤ :=
  let cs := s.data.dropWhile (·.isWhitespace)
  let signAndRest : ℤ × List Char :=
    match cs with
    | '-' :: rest => (-1, rest)
    | '+' :: rest => (1, rest)
    | _ => (1, cs)
  let digits := signAndRest.2.takeWhile (·.isDigit)
  if digits = [] then none
  else some (signAndRest.1 * (digits.foldl (fun a c => a * 10 + (c.toNat - '0'.toNat)) 0 : ℕ))

/-- One JavaScript number that may be `NaN`.  Finite values are exact
rationals; infinities are outside the model. -/
inductive JSNum where
  | num (q : ℚ)
  | nan
deriving DecidableEq, Repr

/-- Model of `parseFloat(s)`: skip leading whitespace, read an optional sign, a
decimal literal `digits[.digits]` (at least one digit) and an optional
exponent part; `nan` when no digit is found.  (`"Infinity"` inputs are
outside the model.) -/
def parseFloatJS (s : String) : JSNum :=
  let cs := s.data.dropWhile (·.isWhitespace)
  let signAndRest : ℚ × List Char :=
    match cs with
    | '-' :: rest => (-1, rest)
    | '+' :: rest => (1, rest)
    | _ => (1, cs)
  let intDigits := signAndRest.2.takeWhile (·.isDigit)
  let rest1 := signAndRest.2.dropWhile (·.isDigit)
  let fracAndRest : List Char × List Char :=
    match rest1 with
    | '.' :: r => (r.takeWhile (·.isDigit), r.dropWhile (·.isDigit))
    | _ => ([], rest1)
  if intDigits = [] ∧ fracAndRest.1 = [] then .nan
  else
    let natOf : List Char → ℕ := fun ds => ds.foldl (fun a c => a * 10 + (c.toNat - '0'.toNat)) 0
    let mantissa : ℚ := (natOf intDigits : ℚ) + (natOf fracAndRest.1 : ℚ) / (10 : ℚ) ^ fracAndRest.1.length
    let expVal : ℤ :=
      match fracAndRest.2 with
      | e :: r =>
        if e = 'e' ∨ e = 'E' then
          let esignAndRest : ℤ × List Char :=
            match r with
            | '-' :: rr => (-1, rr)
            | '+' :: rr => (1, rr)
            | _ => (1, r)
          let eds := esignAndRest.2.takeWhile (·.isDigit)
          if eds = [] then 0 else esignAndRest.1 * (natOf eds : ℤ)
        else 0
      | [] => 0
    .num (signAndRest.1 * mantissa * (10 : ℚ) ^ expVal)

/-- Coercion `x || 0` applied to a parse result: `NaN` and `0` are falsy, every
other number is returned unchanged. -/
def jsOrZero (v : JSNum) : ℚ :=
  match v with
  | .nan => 0
  | .num q => if q = 0 then 0 else q

/-! ## Data model and hour aggregation -/

/-- The `TimeEntry` interface: two wall-clock strings and an optional
direct-hours number (`hours?: number`). -/
structure TimeEntry where
  startTime : String
  endTime : String
  hours : Option ℚ
deriving DecidableEq, Repr

/-- The `DayEntry` interface. -/
structure DayEntry where
  date : JSDate
  entries : List TimeEntry
  totalHours : ℚ
  useDirectHours : Bool
deriving DecidableEq, Repr

/-- Reducer body of `calculateDayHours` in direct-hours mode:
`total + (entry.hours ?? 0)`.  The `isNaN` guard of the source is
vacuous in the exact-rational model of finite numbers. -/
def directStep (total : ℚ) (entry : TimeEntry) : ℚ :=
  total + entry.hours.getD 0

/-- Reducer body of `calculateDayHours` in time-range mode (source lines
200–235): an entry with a missing (empty, hence falsy) start or end, a
start or end that does not split into exactly two `":"`-separated parts,
a part on which `parseInt` yields `NaN`, or `endMinutes < startMinutes`,
leaves the accumulator unchanged; otherwise the entry adds
`(endMinutes - startMinutes) / 60`. -/
def timeRangeStep (total : ℚ) (entry : TimeEntry) : ℚ :=
  if entry.startTime = "" ∨ entry.endTime = "" then total
  else
    let startParts := jsSplitColon entry.startTime
    let endParts := jsSplitColon entry.endTime
    if startParts.length ≠ 2 ∨ endParts.length ≠ 2 then total
    else
      match parseIntJS (startParts.getD 0 ""), parseIntJS (startParts.getD 1 ""),
            parseIntJS (endParts.getD 0 ""), parseIntJS (endParts.getD 1 "") with
      | some startHour, some startMin, some endHour, some endMin =>
        let startMinutes := startHour * 60 + startMin
        let endMinutes := endHour * 60 + endMin
        if endMinutes < startMinutes then total
        else total + ((endMinutes - startMinutes : ℤ) : ℚ) / 60
      | _, _, _, _ => total

/-- Embedding of `calculateDayHours` (source lines 189–236). -/
def calculateDayHours (entries : List TimeEntry) (useDirectHours : Bool) : ℚ :=
  if useDirectHours then entries.foldl directStep 0
  else entries.foldl timeRangeStep 0

/-- Claim-side reading of one time string: a present (non-empty) string
made of exactly two colon-separated numeric parts, valued in minutes. -/
def parseClockTime (s : String) : Option ℤ :=
  if s = "" then none
  else
    match jsSplitColon s with
    | [h, m] =>
      match parseIntJS h, parseIntJS m with
      | some hh, some mm => some (hh * 60 + mm)
      | _, _ => none
    | _ => none

/-- Claim-side contribution of a single entry in time-range mode: both
clock strings present and well-formed and start ≤ end contribute
`(end - start) / 60` hours, everything else contributes `0`. -/
def timeRangeContribution (entry : TimeEntry) : ℚ :=
  match parseClockTime entry.startTime, parseClockTime entry.endTime with
  | some s, some e => if s ≤ e then ((e - s : ℤ) : ℚ) / 60 else 0
  | _, _ => 0

theorem timeRangeStep_eq (t : ℚ) (e : TimeEntry) :
    timeRangeStep t e = t + timeRangeContribution e := by
  unfold timeRangeStep timeRangeContribution parseClockTime
  by_cases hs : e.startTime = ""
  · simp [hs]
  by_cases he : e.endTime = ""
  · simp [hs, he]
  rw [if_neg (by simp [hs, he]), if_neg hs, if_neg he]
  rcases h1 : jsSplitColon e.startTime with _ | ⟨a, _ | ⟨b, _ | ⟨c, t1⟩⟩⟩ <;>
    rcases h2 : jsSplitColon e.endTime with _ | ⟨x, _ | ⟨y, _ | ⟨z, t2⟩⟩⟩ <;>
      simp only [h1, h2] <;> simp
  rcases hpa : parseIntJS a with _ | sh <;> rcases hpb : parseIntJS b with _ | sm <;>
    rcases hpx : parseIntJS x with _ | eh <;> rcases hpy : parseIntJS y with _ | em <;>
      simp
  rcases lt_or_ge (eh * 60 + em) (sh * 60 + sm) with hlt | hge
  · rw [if_pos hlt, if_neg (by omega)]
    ring
  · rw [if_neg (by omega), if_pos hge]

theorem foldl_timeRangeStep (entries : List TimeEntry) (a : ℚ) :
    entries.foldl timeRangeStep a = a + (entries.map timeRangeContribution).sum := by
  induction entries generalizing a with
  | nil => simp
  | cons e l ih =>
    simp only [List.foldl_cons, List.map_cons, List.sum_cons, timeRangeStep_eq, ih]
    ring

theorem foldl_directStep (entries : List TimeEntry) (a : ℚ) :
    entries.foldl directStep a = a + (entries.map (fun e => e.hours.getD 0)).sum := by
  induction entries generalizing a with
  | nil => simp
  | cons e l ih =>
    simp only [List.foldl_cons, List.map_cons, List.sum_cons, directStep, ih]
    ring

/-- Sanity check: 09:00-17:00 counts eight hours. -/
theorem calculateDayHours_sample :
    calculateDayHours [{ startTime := "09:00", endTime := "17:00", hours := none }] false = 8 := by
  unfold calculateDayHours
  rw [if_neg (by simp), foldl_timeRangeStep]
  have h1 : parseClockTime "09:00" = some 540 := by decide
  have h2 : parseClockTime "17:00" = some 1020 := by decide
  simp [timeRangeContribution, h1, h2]
  norm_num

/-- Sanity check: a backwards range counts zero. -/
theorem calculateDayHours_sample_backwards :
    calculateDayHours [{ startTime := "17:00", endTime := "09:00", hours := none }] false = 0 := by
  unfold calculateDayHours
  rw [if_neg (by simp), foldl_timeRangeStep]
  have h1 : parseClockTime "09:00" = some 540 := by decide
  have h2 : parseClockTime "17:00" = some 1020 := by decide
  simp [timeRangeContribution, h1, h2]

/-- C1: in time-range mode the day total is the sum of per-entry
contributions, where an entry whose start and end are present and are
well-formed two-part clock strings with start-minutes ≤ end-minutes
contributes exactly `(end - start) / 60` hours, and every other entry
(missing part, malformed string, or backwards range) contributes `0`
(see `timeRangeContribution`). -/
theorem claim_C1 (entries : List TimeEntry) :
    calculateDayHours entries false = (entries.map timeRangeContribution).sum := by
  unfold calculateDayHours
  rw [if_neg (by simp), foldl_timeRangeStep, zero_add]

theorem timeRangeContribution_nonneg (e : TimeEntry) : 0 ≤ timeRangeContribution e := by
  unfold timeRangeContribution
  rcases parseClockTime e.startTime with _ | s <;> rcases parseClockTime e.endTime with _ | en <;>
    simp
  split_ifs with h
  · have hc : (0 : ℚ) ≤ (en : ℚ) - (s : ℚ) := by exact_mod_cast by omega
    exact div_nonneg hc (by norm_num)
  · exact le_refl 0

/-- C2 corrected: the total is always non-negative in time-range mode; in
direct-hours mode it is non-negative provided every entry's direct-hours
value is non-negative. -/
theorem claim_C2_amended :
    (∀ entries : List TimeEntry, 0 ≤ calculateDayHours entries false)
    ∧ (∀ entries : List TimeEntry, (∀ e ∈ entries, 0 ≤ e.hours.getD 0) →
        0 ≤ calculateDayHours entries true) := by
  constructor
  · intro entries
    unfold calculateDayHours
    rw [if_neg (by simp), foldl_timeRangeStep, zero_add]
    exact List.sum_nonneg (by
      intro q hq
      obtain ⟨e, _, rfl⟩ := List.mem_map.mp hq
      exact timeRangeContribution_nonneg e)
  · intro entries h
    unfold calculateDayHours
    rw [if_pos rfl, foldl_directStep, zero_add]
    exact List.sum_nonneg (by
      intro q hq
      obtain ⟨e, he, rfl⟩ := List.mem_map.mp hq
      exact h e he)

/-- C2 counterexample: in direct-hours mode a single entry holding a
negative hours value (possible through an imported file or a typed
negative number) makes the day total negative. -/
theorem claim_C2_counterexample :
    calculateDayHours [{ startTime := "", endTime := "", hours := some (-1) }] true < 0 := by
  norm_num [calculateDayHours, directStep]

theorem claim_C2_witness :
    0 ≤ calculateDayHours [{ startTime := "", endTime := "", hours := some 2 }] true :=
  claim_C2_amended.2 _ (by intro e he; fin_cases he; norm_num)

/-! ## Week-level mutating operations -/

/-- Model of `Array.prototype.map((x, i) => ...)` starting at index `i0`. -/
def jsMapIdxFrom (f : α → ℕ → α) : ℕ → List α → List α
  | _, [] => []
  | i, a :: l => f a i :: jsMapIdxFrom f (i + 1) l

/-- Model of `xs.map((x, i) => f x i)`. -/
def jsMapIdx (f : α → ℕ → α) (l : List α) : List α :=
  jsMapIdxFrom f 0 l

/-- Model of `Array.prototype.filter((x, i) => ...)` starting at index `i0`. -/
def jsFilterIdxFrom (p : α → ℕ → Bool) : ℕ → List α → List α
  | _, [] => []
  | i, a :: l =>
    if p a i then a :: jsFilterIdxFrom p (i + 1) l else jsFilterIdxFrom p (i + 1) l

/-- Model of `xs.filter((x, i) => p x i)`. -/
def jsFilterIdx (p : α → ℕ → Bool) (l : List α) : List α :=
  jsFilterIdxFrom p 0 l

/-- Which field of an entry `handleTimeChange` edits. -/
inductive EntryField where
  | startTime
  | endTime
  | hours
deriving DecidableEq, Repr

/-- Embedding of `handleTimeChange` (source lines 238–271): rewrite one field of one
entry of one day (the hours field through `parseFloat(value) || 0`) and
recompute that day's total from the updated entries. -/
def handleTimeChange (week : List DayEntry) (dayIndex entryIndex : ℕ)
    (field : EntryField) (value : String) : List DayEntry :=
  jsMapIdx (fun day dIndex =>
    if dIndex = dayIndex then
      let updatedEntries := jsMapIdx (fun entry eIndex =>
        if eIndex = entryIndex then
          match field with
          | .hours => { entry with hours := some (jsOrZero (parseFloatJS value)) }
          | .startTime => { entry with startTime := value }
          | .endTime => { entry with endTime := value }
        else entry) day.entries
      { day with entries := updatedEntries
                 totalHours := calculateDayHours updatedEntries day.useDirectHours }
    else day) week

/-- Embedding of `toggleInputMode` (source lines 273–288): flip the day's mode flag and
recompute the total from the unchanged entries under the new mode. -/
def toggleInputMode (week : List DayEntry) (dayIndex : ℕ) : List DayEntry :=
  jsMapIdx (fun day dIndex =>
    if dIndex = dayIndex then
      let newUseDirectHours := !day.useDirectHours
      { day with useDirectHours := newUseDirectHours
                 totalHours := calculateDayHours day.entries newUseDirectHours }
    else day) week

/-- Embedding of `addTimeEntry` (source lines 290–302): append a blank entry; the total
is not recomputed. -/
def addTimeEntry (week : List DayEntry) (dayIndex : ℕ) : List DayEntry :=
  jsMapIdx (fun day dIndex =>
    if dIndex = dayIndex then
      { day with entries := day.entries ++ [{ startTime := "", endTime := "", hours := some 0 }] }
    else day) week

/-- Embedding of `deleteTimeEntry` (source lines 304–320): drop the entry at
`entryIndex` and recompute the day's total. -/
def deleteTimeEntry (week : List DayEntry) (dayIndex entryIndex : ℕ) : List DayEntry :=
  jsMapIdx (fun day dIndex =>
    if dIndex = dayIndex then
      let updatedEntries := jsFilterIdx (fun _ eIndex => eIndex ≠ entryIndex) day.entries
      { day with entries := updatedEntries
                 totalHours := calculateDayHours updatedEntries day.useDirectHours }
    else day) week

/-- The documented invariant of a day record: the stored total is the one
derived from its entries under its mode. -/
def dayInvariant (d : DayEntry) : Prop :=
  d.totalHours = calculateDayHours d.entries d.useDirectHours

instance (d : DayEntry) : Decidable (dayInvariant d) := by
  unfold dayInvariant
  infer_instance

/-- Every day of a week satisfies `dayInvariant`. -/
def weekInvariant (w : List DayEntry) : Prop :=
  ∀ d ∈ w, dayInvariant d

theorem jsMapIdxFrom_pres {P : α → Prop} {f : α → ℕ → α}
    (hf : ∀ a i, P a → P (f a i)) :
    ∀ (i : ℕ) (l : List α), (∀ a ∈ l, P a) → ∀ b ∈ jsMapIdxFrom f i l, P b := by
  intro i l
  induction l generalizing i with
  | nil => intro _ b hb; cases hb
  | cons a l ih =>
    intro h b hb
    rcases List.mem_cons.mp hb with hb | hb
    · exact hb ▸ hf a i (h a (List.mem_cons_self a l))
    · exact ih (i + 1) (fun x hx => h x (List.mem_cons_of_mem a hx)) b hb

theorem jsMapIdxFrom_comp (f g : α → ℕ → α) :
    ∀ (i : ℕ) (l : List α),
      jsMapIdxFrom f i (jsMapIdxFrom g i l) = jsMapIdxFrom (fun a j => f (g a j) j) i l := by
  intro i l
  induction l generalizing i with
  | nil => rfl
  | cons a l ih => simp [jsMapIdxFrom, ih]

theorem jsMapIdxFrom_map_eq {β : Type} (t : α → β) (f : α → ℕ → α)
    (hf : ∀ a ∈ l, ∀ j, t (f a j) = t a) :
    ∀ i : ℕ, (jsMapIdxFrom f i l).map t = l.map t := by
  induction l with
  | nil => intro i; rfl
  | cons a l ih =>
    intro i
    simp only [jsMapIdxFrom, List.map_cons]
    rw [hf a (List.mem_cons_self a l) i,
      ih (fun x hx j => hf x (List.mem_cons_of_mem a hx) j) (i + 1)]

/-- Appending the blank entry used by `addTimeEntry` changes no total, in
either mode: it has `hours = 0` and an empty (falsy) start time. -/
theorem calculateDayHours_append_blank (es : List TimeEntry) (m : Bool) :
    calculateDayHours (es ++ [{ startTime := "", endTime := "", hours := some 0 }]) m
      = calculateDayHours es m := by
  cases m <;> unfold calculateDayHours <;>
    simp [List.foldl_append, timeRangeStep, directStep]

/-- C10: all four entry-mutating operations preserve, for every day of
the week, the invariant `totalHours = calculateDayHours entries mode`;
`addTimeEntry` does so without recomputing because the appended blank
entry contributes nothing in either mode. -/
theorem claim_C10 (week : List DayEntry) (dayIndex entryIndex : ℕ)
    (field : EntryField) (value : String) (h : weekInvariant week) :
    weekInvariant (handleTimeChange week dayIndex entryIndex field value)
    ∧ weekInvariant (toggleInputMode week dayIndex)
    ∧ weekInvariant (addTimeEntry week dayIndex)
    ∧ weekInvariant (deleteTimeEntry week dayIndex entryIndex) := by
  refine ⟨?_, ?_, ?_, ?_⟩
  · intro d hd
    refine jsMapIdxFrom_pres (fun a i ha => ?_) 0 week h d hd
    dsimp only
    split
    · simp [dayInvariant]
    · exact ha
  · intro d hd
    refine jsMapIdxFrom_pres (fun a i ha => ?_) 0 week h d hd
    dsimp only
    split
    · simp [dayInvariant]
    · exact ha
  · intro d hd
    refine jsMapIdxFrom_pres (fun a i ha => ?_) 0 week h d hd
    dsimp only
    split
    · simpa [dayInvariant, calculateDayHours_append_blank] using ha
    · exact ha
  · intro d hd
    refine jsMapIdxFrom_pres (fun a i ha => ?_) 0 week h d hd
    dsimp only
    split
    · simp [dayInvariant]
    · exact ha

theorem claim_C10_witness :
    weekInvariant (addTimeEntry
      [{ date := ⟨0, 0⟩, entries := [], totalHours := 0, useDirectHours := false }] 0) :=
  (claim_C10 _ 0 0 EntryField.hours "2"
    (by intro d hd; fin_cases hd; simp [dayInvariant, calculateDayHours])).2.2.1

/-- C6 corrected: for a day whose stored total is the one derived from
its entries and mode (the `dayInvariant`), toggling the mode twice
restores the original totals; a single toggle always preserves every
day's entries and re-establishes the derived-total invariant under the
new mode. -/
theorem claim_C6_amended (week : List DayEntry) (i : ℕ) (hinv : weekInvariant week) :
    (toggleInputMode (toggleInputMode week i) i).map DayEntry.totalHours
        = week.map DayEntry.totalHours
    ∧ (toggleInputMode week i).map DayEntry.entries = week.map DayEntry.entries
    ∧ ∀ d ∈ toggleInputMode week i,
        d.totalHours = calculateDayHours d.entries d.useDirectHours := by
  refine ⟨?_, ?_, ?_⟩
  · unfold toggleInputMode jsMapIdx
    rw [jsMapIdxFrom_comp]
    refine jsMapIdxFrom_map_eq _ _ (fun a ha j => ?_) 0
    by_cases hj : j = i
    · simp only [hj, if_pos rfl]
      show calculateDayHours a.entries (!(!a.useDirectHours)) = a.totalHours
      rw [Bool.not_not]
      exact (hinv a ha).symm
    · simp [hj]
  · unfold toggleInputMode jsMapIdx
    refine jsMapIdxFrom_map_eq _ _ (fun a ha j => ?_) 0
    by_cases hj : j = i <;> simp [hj]
  · intro d hd
    refine jsMapIdxFrom_pres (fun a j ha => ?_) 0 week hinv d hd
    dsimp only
    split
    · simp [dayInvariant]
    · exact ha

/-- C6 counterexample: a day record whose stored total (5) is not derived
from its entries (none) does not get its total back after two toggles —
the second recomputation yields 0. -/
theorem claim_C6_counterexample :
    (toggleInputMode (toggleInputMode
        [{ date := ⟨0, 0⟩, entries := [], totalHours := 5, useDirectHours := false }] 0) 0).map
        DayEntry.totalHours
      ≠ [{ date := ⟨0, 0⟩, entries := [], totalHours := 5, useDirectHours := false }].map
        DayEntry.totalHours := by
  simp [toggleInputMode, jsMapIdx, jsMapIdxFrom, calculateDayHours]

theorem claim_C6_witness :
    (toggleInputMode (toggleInputMode
        [{ date := ⟨0, 0⟩, entries := [], totalHours := 0, useDirectHours := false }] 0) 0).map
        DayEntry.totalHours
      = [{ date := ⟨0, 0⟩, entries := [], totalHours := 0, useDirectHours := false }].map
        DayEntry.totalHours :=
  (claim_C6_amended _ 0 (by intro d hd; fin_cases hd; simp [dayInvariant, calculateDayHours])).1

/-! ## Persistence keys and the local store -/

/-- Model of `s.startsWith(stem)`, i.e. `String.prototype.startsWith`. -/
def jsStartsWith (s stem : String) : Bool :=
  stem.data.isPrefixOf s.data

/-- Days-since-epoch to a (year, month, day) civil date (proleptic
Gregorian), the conversion underlying `toISOString`'s date part. -/
def civilFromDays (z0 : ℤ) : ℤ × ℤ × ℤ :=
  let z := z0 + 719468
  let era : ℤ := z / 146097
  let doe : ℤ := z - era * 146097
  let yoe : ℤ := (doe - doe / 1460 + doe / 36524 - doe / 146096) / 365
  let y : ℤ := yoe + era * 400
  let doy : ℤ := doe - (365 * yoe + yoe / 4 - yoe / 100)
  let mp : ℤ := (5 * doy + 2) / 153
  let dd : ℤ := doy - (153 * mp + 2) / 5 + 1
  let mm : ℤ := mp + (if mp < 10 then 3 else -9)
  (y + (if mm ≤ 2 then 1 else 0), mm, dd)

def pad2 (n : ℤ) : String :=
  if n < 10 then "0" ++ toString n else toString n

def pad4 (n : ℤ) : String :=
  if n < 10 then "000" ++ toString n
  else if n < 100 then "00" ++ toString n
  else if n < 1000 then "0" ++ toString n
  else toString n

/-- Model of `d.toISOString().split("T")[0]`: the date-only ISO rendering
`YYYY-MM-DD`. -/
def isoDateString (d : JSDate) : String :=
  pad4 (civilFromDays d.day).1 ++ "-" ++ pad2 (civilFromDays d.day).2.1
    ++ "-" ++ pad2 (civilFromDays d.day).2.2

/-- The `TIMESHEET_PREFIX` constant of the source, `"timesheet-data-"`. -/
def TIMESHEET_STEM : String := "timesheet-data-"

/-- The fixed key for the wage setting. -/
def WAGE_KEY : String := "timesheet-hourly-wage"

/-- Embedding of `getLocalStorageKey` (source lines 90–92). -/
def getLocalStorageKey (monday : JSDate) : String :=
  TIMESHEET_STEM ++ isoDateString monday

/-- A value held in `localStorage`; storing a serialized payload is
modelled by storing the payload itself. -/
inductive StoredVal where
  | weekVal (days : List DayEntry)
  | wageVal (q : ℚ)
deriving DecidableEq, Repr

/-- Model of `localStorage.setItem`: update the key in place, or append it. -/
def storeSet (store : List (String × StoredVal)) (k : String) (v : StoredVal) :
    List (String × StoredVal) :=
  if store.any (fun kv => kv.1 == k) then
    store.map (fun kv => if kv.1 == k then (k, v) else kv)
  else store ++ [(k, v)]

/-- Model of `localStorage.getItem`. -/
def storeGet (store : List (String × StoredVal)) (k : String) : Option StoredVal :=
  (store.find? (fun kv => kv.1 == k)).map Prod.snd

/-- Model of `localStorage.removeItem`. -/
def storeRemove (store : List (String × StoredVal)) (k : String) :
    List (String × StoredVal) :=
  store.filter (fun kv => kv.1 != k)

theorem storeGet_storeSet (s : List (String × StoredVal)) (k : String) (v : StoredVal) :
    storeGet (storeSet s k v) k = some v := by
  induction s with
  | nil => simp [storeGet, storeSet]
  | cons kv s ih =>
    by_cases hk : kv.1 = k
    · have hany : ((kv :: s).any (fun p => p.1 == k)) = true := by
        simp [List.any_cons, hk]
      unfold storeSet
      rw [if_pos hany]
      unfold storeGet
      simp only [List.map_cons]
      rw [if_pos (show (kv.1 == k) = true by simpa using hk)]
      rw [List.find?_cons_of_pos _ (by simp)]
      rfl
    · have hbeq : (kv.1 == k) = false := by simpa using hk
      by_cases ha : (s.any (fun p => p.1 == k)) = true
      · have hany : ((kv :: s).any (fun p => p.1 == k)) = true := by
          simp [List.any_cons, ha]
        unfold storeSet
        rw [if_pos hany]
        unfold storeGet
        simp only [List.map_cons]
        rw [if_neg (show ¬(kv.1 == k) = true by simp [hbeq])]
        rw [List.find?_cons_of_neg _ (by simp [hbeq])]
        have ih2 := ih
        unfold storeSet at ih2
        rw [if_pos ha] at ih2
        exact ih2
      · have hany : ¬((kv :: s).any (fun p => p.1 == k)) = true := by
          simp only [List.any_cons, hbeq, Bool.false_or]
          exact ha
        unfold storeSet
        rw [if_neg hany]
        unfold storeGet
        rw [List.cons_append]
        rw [List.find?_cons_of_neg _ (by simp [hbeq])]
        have ih2 := ih
        unfold storeSet at ih2
        rw [if_neg ha] at ih2
        exact ih2

/-! ## Component state -/

/-- The in-memory state of `TimeSheetClient` together with the local
store it reads and writes. -/
structure AppState where
  selectedMonday : JSDate
  weekData : List DayEntry
  hourlyWage : ℚ
  store : List (String × StoredVal)
deriving DecidableEq, Repr

/-- Embedding of `initializeNewWeek` (source lines 162–174): seven consecutive days
starting at the given Monday, each with one blank entry, total `0` and
time-range mode. -/
def initializeNewWeek (monday : JSDate) : List DayEntry :=
  (List.range 7).map fun i =>
    { date := { day := monday.day + i, ms := monday.ms }
      entries := [{ startTime := "", endTime := "", hours := some 0 }]
      totalHours := 0
      useDirectHours := false }

/-- The persistence effect of source lines 177–182: whenever the week
data is non-empty, serialize it under the selected Monday's key. -/
def saveWeekEffect (st : AppState) : AppState :=
  if st.weekData.length > 0 then
    { st with
        store :=
          storeSet st.store (getLocalStorageKey st.selectedMonday) (.weekVal st.weekData) }
  else st

/-! ## Loading a stored week (sanitization) -/

/-- One record of a stored, successfully parsed week, before
sanitization; `none` marks an absent field. -/
structure StoredDay where
  date : JSDate
  entries : Option (List TimeEntry)
  totalHours : Option ℚ
  useDirectHours : Option Bool
deriving DecidableEq, Repr

/-- A day record as produced by the load path.  Its total is a raw
JavaScript number, which may be `NaN`. -/
structure LoadedDay where
  date : JSDate
  entries : List TimeEntry
  totalHours : JSNum
  useDirectHours : Bool
deriving DecidableEq, Repr

/-- Model of `parseFloat` applied to a stored JSON field: a present (finite)
number converts to its own decimal string and parses back to itself; an
absent field is the `undefined` value, whose string `"undefined"` parses
to `NaN`. -/
def parseFloatField (v : Option ℚ) : JSNum :=
  match v with
  | some q => .num q
  | none => .nan

/-- Coalescing `x ?? d` for a value that is never null/undefined: `NaN` is a
number, not a nullish value, so the default is never taken. -/
def nullishCoalesce (x : JSNum) (_d : JSNum) : JSNum := x

/-- The per-day sanitization of the load effect (source lines 141–148):
`entries` defaults to one blank entry (without an `hours` field),
`useDirectHours` defaults to `false`, and `totalHours` becomes
`parseFloat(day.totalHours) ?? 0`. -/
def sanitizeStoredDay (day : StoredDay) : LoadedDay :=
  { date := day.date
    entries := day.entries.getD [{ startTime := "", endTime := "", hours := none }]
    totalHours := nullishCoalesce (parseFloatField day.totalHours) (.num 0)
    useDirectHours := day.useDirectHours.getD false }

/-- What `getItem` + `JSON.parse` yields for a week key: no stored value,
a stored value on which `JSON.parse` throws, or a parsed day list. -/
inductive StoredWeek where
  | absent
  | corrupt
  | parsed (days : List StoredDay)

/-- The `LoadedDay` view of an in-memory day record (its total is a plain
number). -/
def asLoaded (d : DayEntry) : LoadedDay :=
  { date := d.date, entries := d.entries, totalHours := .num d.totalHours
    useDirectHours := d.useDirectHours }

/-- The load effect for the selected week (source lines 135–160): a
missing record and a record on which `JSON.parse` throws both fall back
to `initializeNewWeek`; a parsed record is sanitized day by day. -/
def loadWeek (monday : JSDate) (stored : StoredWeek) : List LoadedDay :=
  match stored with
  | .absent => (initializeNewWeek monday).map asLoaded
  | .corrupt => (initializeNewWeek monday).map asLoaded
  | .parsed days => days.map sanitizeStoredDay

/-- C4 (code bug): a stored day record with no stored total should load
with `totalHours = 0`, but loads with `totalHours = NaN`: `parseFloat` of
the absent field yields `NaN`, which is not nullish, so the `?? 0`
default never fires.  The entries and mode-flag defaults of the claim do
hold, as the evaluated record shows, and a parse failure does fall back
to a freshly initialized week. -/
theorem claim_C4_bug :
    loadWeek ⟨19723, 0⟩
        (.parsed [{ date := ⟨19723, 0⟩, entries := none, totalHours := none,
                    useDirectHours := none }])
      = [{ date := ⟨19723, 0⟩,
           entries := [{ startTime := "", endTime := "", hours := none }],
           totalHours := JSNum.nan,
           useDirectHours := false }]
    ∧ JSNum.nan ≠ JSNum.num 0
    ∧ loadWeek ⟨19723, 0⟩ .corrupt = (initializeNewWeek ⟨19723, 0⟩).map asLoaded := by
  refine ⟨rfl, ?_, rfl⟩
  intro h
  cases h

/-! ## Import and export -/

/-- A `{startTime, endTime, hours}` object of an interchange document;
each field may be absent. -/
structure RawEntry where
  startTime : Option String
  endTime : Option String
  hours : Option ℚ
deriving DecidableEq, Repr

/-- A day object of an interchange document.  The spread `...day` passes
`totalHours` and `useDirectHours` through unchanged (modelled at their
interface types); `entries` may be absent, in which case the import
handler's `day.entries.map` throws. -/
structure RawDay where
  date : JSDate
  entries : Option (List RawEntry)
  totalHours : ℚ
  useDirectHours : Bool
deriving DecidableEq, Repr

/-- A parsed interchange document.  `selectedMonday = none` models a
missing (or falsy) week anchor and `weekData = none` a missing
`weekData` or one that is not an array. -/
structure RawDoc where
  selectedMonday : Option JSDate
  weekData : Option (List RawDay)
deriving DecidableEq, Repr

/-- Entry sanitization of the import handler: missing fields default to
empty strings and zero hours. -/
def importEntry (e : RawEntry) : TimeEntry :=
  { startTime := e.startTime.getD ""
    endTime := e.endTime.getD ""
    hours := some (e.hours.getD 0) }

/-- Validation and conversion of the import handler (source lines
464–483): reject (throw) when `selectedMonday` is falsy or `weekData` is
not an array; converting a day whose `entries` is absent throws
(`day.entries.map` on `undefined`), which the handler's `catch` turns
into a rejection as well.  `none` models every rejected (caught) run,
including a `JSON.parse` failure (`doc = none`). -/
def importResult (doc : Option RawDoc) : Option (JSDate × List DayEntry) :=
  match doc with
  | none => none
  | some data =>
    match data.selectedMonday with
    | none => none
    | some importedMonday =>
      match data.weekData with
      | none => none
      | some days =>
        if days.all (fun day => day.entries.isSome) then
          some (importedMonday, days.map (fun day =>
            { date := day.date
              entries := (day.entries.getD []).map importEntry
              totalHours := day.totalHours
              useDirectHours := day.useDirectHours }))
        else none

/-- Embedding of `handleFileSelect` (source lines 458–505) on an already-read and
parsed file: on success the imported Monday and week replace the current
ones and the imported week is persisted under its key; on any parse or
validation failure the state is left untouched and an alert (`true` in
the second component) is shown. -/
def handleFileSelect (st : AppState) (doc : Option RawDoc) : AppState × Bool :=
  match importResult doc with
  | none => (st, true)
  | some (importedMonday, importedWeekData) =>
    ({ st with
        selectedMonday := importedMonday
        weekData := importedWeekData
        store := storeSet st.store (getLocalStorageKey importedMonday)
          (.weekVal importedWeekData) }, false)

/-- Embedding of `downloadJSON` (source lines 368–399): the exported document holds
the current Monday and the full week data (a `Date` serializes to its
ISO string, which `new Date` parses back exactly; an optional `hours`
field absent in memory is omitted by `JSON.stringify` and so stays
absent in the document). -/
def exportDoc (st : AppState) : RawDoc :=
  { selectedMonday := some st.selectedMonday
    weekData := some (st.weekData.map (fun d =>
      { date := d.date
        entries := some (d.entries.map (fun e =>
          { startTime := some e.startTime, endTime := some e.endTime, hours := e.hours }))
        totalHours := d.totalHours
        useDirectHours := d.useDirectHours })) }

/-- C3 corrected: the import handler accepts a parsed document exactly
when it has a week anchor, its `weekData` is an array, and every day
record carries an entries array — the length of `weekData` is not
checked — and it rejects any document lacking `selectedMonday` or a
`weekData` array (and any unparsable file). -/
theorem claim_C3_amended :
    importResult none = none
    ∧ ∀ data : RawDoc,
        (importResult (some data)).isSome = true ↔
          (data.selectedMonday.isSome = true
            ∧ ∃ days, data.weekData = some days
                ∧ days.all (fun day => day.entries.isSome) = true) := by
  refine ⟨rfl, fun data => ?_⟩
  rcases data with ⟨sm, wd⟩
  rcases sm with _ | m <;> rcases wd with _ | days <;> simp [importResult]

/-- C3 counterexample: a document with a week anchor and an *empty*
`weekData` array — not seven day records — is accepted by the import
handler. -/
theorem claim_C3_counterexample :
    (importResult (some (RawDoc.mk (some ⟨19723, 0⟩) (some [])))).isSome = true
    ∧ ([] : List RawDay).length ≠ 7 := by
  exact ⟨rfl, by norm_num⟩

theorem claim_C3_witness :
    (importResult (some (RawDoc.mk (some ⟨19724, 0⟩) (some [])))).isSome = true :=
  (claim_C3_amended.2 _).mpr ⟨rfl, [], rfl, rfl⟩

/-- C5: an import whose content fails `JSON.parse` or fails validation
leaves the whole state — selected Monday, week data and store — exactly
as it was, and raises the alert. -/
theorem claim_C5 (st : AppState) (doc : Option RawDoc) (h : importResult doc = none) :
    handleFileSelect st doc = (st, true) := by
  unfold handleFileSelect
  rw [h]

theorem claim_C5_witness :
    handleFileSelect
        { selectedMonday := ⟨0, 0⟩, weekData := [], hourlyWage := 0, store := [] }
        (some { selectedMonday := none, weekData := none })
      = ({ selectedMonday := ⟨0, 0⟩, weekData := [], hourlyWage := 0, store := [] }, true) :=
  claim_C5 _ _ rfl

/-- C7: exporting the current document and importing it back succeeds
(no alert) and reproduces an equivalent week record: the same Monday
anchor and the same per-day total hours. -/
theorem claim_C7 (st : AppState) :
    (handleFileSelect st (some (exportDoc st))).2 = false
    ∧ (handleFileSelect st (some (exportDoc st))).1.selectedMonday = st.selectedMonday
    ∧ (handleFileSelect st (some (exportDoc st))).1.weekData.map DayEntry.totalHours
        = st.weekData.map DayEntry.totalHours := by
  unfold handleFileSelect importResult exportDoc
  dsimp only
  rw [if_pos (by simp)]
  refine ⟨rfl, rfl, ?_⟩
  simp [List.map_map, Function.comp]

/-! ## Clear all -/

/-- Embedding of `clearAll` (source lines 401–445): drop every store key that starts
with the timesheet key stem, reset the wage to `0` and drop its key,
and rebuild the selected week as seven empty days anchored at the
present week's Monday. -/
def clearAll (now : JSDate) (st : AppState) : AppState :=
  let store1 := st.store.filter (fun kv => !(jsStartsWith kv.1 TIMESHEET_STEM))
  let store2 := storeRemove store1 WAGE_KEY
  let newMonday := getMonday now
  let newWeekData := (List.range 7).map fun i =>
    { date := { day := newMonday.day + i, ms := newMonday.ms }
      entries := [{ startTime := "", endTime := "", hours := some 0 }]
      totalHours := (0 : ℚ)
      useDirectHours := false }
  { selectedMonday := newMonday
    weekData := newWeekData
    hourlyWage := 0
    store := store2 }

/-- C8 corrected: right after `clearAll` itself no timesheet-stem key and
no wage key remain, the wage is `0`, and the current week is the default
7-day structure of empty entries anchored at the present week's Monday
with all totals `0`; but the persistence effect that follows the state
update re-saves that fresh week, so once the operation completes the
store again holds the current Monday's week key. -/
theorem claim_C8_amended (st : AppState) (now : JSDate) :
    (∀ kv ∈ (clearAll now st).store,
        jsStartsWith kv.1 TIMESHEET_STEM = false ∧ kv.1 ≠ WAGE_KEY)
    ∧ (clearAll now st).hourlyWage = 0
    ∧ (clearAll now st).selectedMonday = getMonday now
    ∧ (clearAll now st).weekData.length = 7
    ∧ (∀ d ∈ (clearAll now st).weekData,
        d.entries = [{ startTime := "", endTime := "", hours := some 0 }]
          ∧ d.totalHours = 0 ∧ d.useDirectHours = false)
    ∧ (clearAll now st).weekData.map (fun d => d.date.day)
        = (List.range 7).map (fun i => (getMonday now).day + i)
    ∧ storeGet (saveWeekEffect (clearAll now st)).store (getLocalStorageKey (getMonday now))
        = some (.weekVal (clearAll now st).weekData) := by
  refine ⟨?_, rfl, rfl, by simp [clearAll], ?_, by simp only [clearAll, List.map_map]; rfl, ?_⟩
  · intro kv hkv
    simp only [clearAll, storeRemove, List.mem_filter] at hkv
    refine ⟨by simpa using hkv.1.2, by simpa using hkv.2⟩
  · intro d hd
    simp only [clearAll, List.mem_map] at hd
    obtain ⟨i, _, rfl⟩ := hd
    exact ⟨rfl, rfl, rfl⟩
  · unfold saveWeekEffect
    rw [if_pos (by simp [clearAll])]
    exact storeGet_storeSet _ _ _

/-- C8 counterexample: starting from an empty store, after `clearAll`
and the persistence effect that follows it, the store again contains a
key with the timesheet stem (the freshly saved current week), so "no
persisted week key remains" fails. -/
theorem claim_C8_counterexample :
    ∃ kv ∈ (saveWeekEffect (clearAll ⟨19723, 0⟩
        { selectedMonday := ⟨19723, 0⟩, weekData := [], hourlyWage := 0,
          store := [] })).store,
      jsStartsWith kv.1 TIMESHEET_STEM = true := by
  decide

theorem claim_C8_witness :
    storeGet (saveWeekEffect (clearAll ⟨19723, 3600000⟩
        { selectedMonday := ⟨19723, 0⟩, weekData := [], hourlyWage := 5,
          store := [(WAGE_KEY, .wageVal 5)] })).store
        (getLocalStorageKey (getMonday ⟨19723, 3600000⟩))
      = some (.weekVal (clearAll ⟨19723, 3600000⟩
        { selectedMonday := ⟨19723, 0⟩, weekData := [], hourlyWage := 5,
          store := [(WAGE_KEY, .wageVal 5)] }).weekData) :=
  (claim_C8_amended _ _).2.2.2.2.2.2
